import Mathlib

/-
  Shallow embedding of the chapointdat reader (Go).
  Lines and Go strings are byte lists (List Nat, each entry an octet value).
  Go runtime panics (index or slice out of range) are modelled as `none`;
  a returned Go error value is modelled as `some msg` with the message bytes.
-/

abbrev Msg := List Nat

deriving instance DecidableEq for Except

/-- ASCII bytes of a literal. -/
def str (s : String) : List Nat := s.toList.map Char.toNat

def isSpaceB (b : Nat) : Bool :=
  b == 9 || b == 10 || b == 11 || b == 12 || b == 13 || b == 32

/-- strings.TrimSpace on ASCII bytes. -/
def trimB (l : List Nat) : List Nat :=
  ((l.dropWhile isSpaceB).reverse.dropWhile isSpaceB).reverse

/-- strings.Split(s, "<"): byte 60 is the separator; Split("") = [""]. -/
def splitB : List Nat → List (List Nat)
  | [] => [[]]
  | b :: rest =>
    if b == 60 then [] :: splitB rest
    else
      match splitB rest with
      | [] => [[b]]
      | p :: ps => (b :: p) :: ps

def isDigitB (b : Nat) : Bool := 48 ≤ b && b ≤ 57

def digitsVal (l : List Nat) : Nat := l.foldl (fun a b => a * 10 + (b - 48)) 0

def atoiErrMsg (s : List Nat) : Msg :=
  str "strconv.Atoi: parsing " ++ [34] ++ s ++ [34] ++ str ": invalid syntax"

/-- strconv.Atoi: optional sign, then at least one digit; error otherwise. -/
def goAtoi (s : List Nat) : Except Msg Int :=
  match s with
  | 43 :: rest =>
    if rest.isEmpty || !(rest.all isDigitB) then .error (atoiErrMsg s)
    else .ok (digitsVal rest : Int)
  | 45 :: rest =>
    if rest.isEmpty || !(rest.all isDigitB) then .error (atoiErrMsg s)
    else .ok (-(digitsVal rest : Int))
  | _ =>
    if s.isEmpty || !(s.all isDigitB) then .error (atoiErrMsg s)
    else .ok (digitsVal s : Int)

def natStr (n : Nat) : List Nat := (Nat.toDigits 10 n).map Char.toNat

/-- fmt %d rendering of an int. -/
def intStr (v : Int) : List Nat :=
  if v < 0 then 45 :: natStr v.natAbs else natStr v.toNat

structure GoDate where
  y : Nat
  m : Nat
  d : Nat
deriving DecidableEq

/-- time.Time zero value: January 1, year 1. -/
def goDateZero : GoDate := ⟨1, 1, 1⟩

def isLeap (y : Nat) : Bool := (y % 4 == 0 && y % 100 != 0) || y % 400 == 0

def daysIn (y m : Nat) : Nat :=
  if m = 2 then (if isLeap y then 29 else 28)
  else if m = 4 ∨ m = 6 ∨ m = 9 ∨ m = 11 then 30
  else 31

def dateErrMsg (s : List Nat) : Msg :=
  str "parsing time " ++ [34] ++ s ++ [34] ++ str " as 20060102: cannot parse"

/-- time.Parse with layout 20060102: 8 digits, calendar-valid month and day. -/
def goDateParse (s : List Nat) : Except Msg GoDate :=
  if s.length = 8 ∧ s.all isDigitB then
    let y := digitsVal (s.take 4)
    let m := digitsVal ((s.drop 4).take 2)
    let d := digitsVal ((s.drop 6).take 2)
    if 1 ≤ m ∧ m ≤ 12 ∧ 1 ≤ d ∧ d ≤ daysIn y m then .ok ⟨y, m, d⟩
    else .error (dateErrMsg s)
  else .error (dateErrMsg s)

structure Header where
  run : Int
  prodDate : GoDate
deriving DecidableEq

structure Footer where
  recordCount : Int
deriving DecidableEq

structure Company where
  companyNumber : List Nat
  companyStatus : List Nat
  numberOfOfficers : List Nat
  companyName : List Nat
deriving DecidableEq

structure Person where
  companyNumber : List Nat
  appDateOrigin : List Nat
  appointmentType : List Nat
  personNumber : List Nat
  corporateIndicator : List Nat
  appointmentDate : List Nat
  resignationDate : List Nat
  postcode : List Nat
  partialDateOfBirth : List Nat
  fullDateOfBirth : List Nat
  title : List Nat
  forenames : List Nat
  surname : List Nat
  honours : List Nat
  careOf : List Nat
  poBox : List Nat
  addressLine1 : List Nat
  addressLine2 : List Nat
  postTown : List Nat
  county : List Nat
  country : List Nat
  occupation : List Nat
  nationality : List Nat
  resCountry : List Nat
deriving DecidableEq

/-- A record handed to a caller-supplied handler. -/
inductive Rec where
  | header (h : Header)
  | footer (f : Footer)
  | company (c : Company)
  | person (p : Person)
deriving DecidableEq

/-- The per-entry counters: companiesProcessed (ct) and personsProcessed (pt). -/
structure St where
  ct : Nat
  pt : Nat
deriving DecidableEq

/-- Handlers return a Go error: none is nil, some is an error message. -/
structure Reader where
  personHandler : Person → Option Msg
  companyHandler : Company → Option Msg
  headerHandler : Header → Option Msg
  footerHandler : Footer → Option Msg

/-- NewReader() with no options: all handlers are no-ops returning nil. -/
def noopReader : Reader :=
  ⟨fun _ => none, fun _ => none, fun _ => none, fun _ => none⟩

def headerId : List Nat := str "DDDDSNAP"
def trailerId : List Nat := str "99999999"

/-- Reader.headerRow. Slice accesses line[0:8], line[8:12], line[12:20]
    panic (none) when the line is too short. -/
def headerRow (l : List Nat) : Option (Header × Option Msg) :=
  if l.length < 8 then none
  else if l.take 8 ≠ headerId then
    some (⟨0, goDateZero⟩, some (str "header line does not start with DDDDSNAP"))
  else if l.length < 12 then none
  else
    match goAtoi ((l.drop 8).take 4) with
    | .error e => some (⟨0, goDateZero⟩, some (str "error reading run: " ++ e))
    | .ok run =>
      if l.length < 20 then none
      else
        match goDateParse ((l.drop 12).take 8) with
        | .ok d => some (⟨run, d⟩, none)
        | .error e => some (⟨run, goDateZero⟩, some e)

/-- Reader.companyRow. Fixed accesses reach line[36:40], so a line shorter
    than 40 bytes panics. The discriminator-mismatch error assigned at the
    top of the source function is unconditionally overwritten by the
    strconv.Atoi result for the name length, so it never escapes.
    When Atoi fails the Go code keeps nameLength = 0 and, having already
    established len(line) >= 40, slices line[40:39]: a panic.
    A parsed length below 1 that passes the bounds check also panics. -/
def companyRow (l : List Nat) : Option (Company × Option Msg) :=
  if l.length < 40 then none
  else
    let base : Company :=
      { companyNumber := trimB (l.take 8)
      , companyStatus := trimB ((l.drop 9).take 1)
      , numberOfOfficers := trimB ((l.drop 32).take 4)
      , companyName := [] }
    match goAtoi (trimB ((l.drop 36).take 4)) with
    | .ok n =>
      if (40 + n : Int) > (l.length : Int) then some (base, none)
      else if 1 ≤ n then
        some ({ base with companyName := trimB ((l.drop 40).take (n - 1).toNat) }, none)
      else none
    | .error _ => none

/-- The fixed-offset Person fields, set before the variable section is read. -/
def personFixed (l : List Nat) : Person :=
  { companyNumber := trimB (l.take 8)
  , appDateOrigin := trimB ((l.drop 9).take 1)
  , appointmentType := trimB ((l.drop 10).take 2)
  , personNumber := trimB ((l.drop 12).take 12)
  , corporateIndicator := trimB ((l.drop 24).take 1)
  , appointmentDate := trimB ((l.drop 32).take 8)
  , resignationDate := trimB ((l.drop 40).take 8)
  , postcode := trimB ((l.drop 48).take 8)
  , partialDateOfBirth := trimB ((l.drop 56).take 8)
  , fullDateOfBirth := trimB ((l.drop 64).take 8)
  , title := [], forenames := [], surname := [], honours := [], careOf := []
  , poBox := [], addressLine1 := [], addressLine2 := [], postTown := []
  , county := [], country := [], occupation := [], nationality := []
  , resCountry := [] }

/-- Positional assignment of the variable subfields: data[k] is used only
    when len(data) > k; resCountry only when len(data) == 14. -/
def fillVar (p0 : Person) (data : List (List Nat)) : Person :=
  let p := p0
  let p := if 0 < data.length then { p with title := trimB (data.getD 0 []) } else p
  let p := if 1 < data.length then { p with forenames := trimB (data.getD 1 []) } else p
  let p := if 2 < data.length then { p with surname := trimB (data.getD 2 []) } else p
  let p := if 3 < data.length then { p with honours := trimB (data.getD 3 []) } else p
  let p := if 4 < data.length then { p with careOf := trimB (data.getD 4 []) } else p
  let p := if 5 < data.length then { p with poBox := trimB (data.getD 5 []) } else p
  let p := if 6 < data.length then { p with addressLine1 := trimB (data.getD 6 []) } else p
  let p := if 7 < data.length then { p with addressLine2 := trimB (data.getD 7 []) } else p
  let p := if 8 < data.length then { p with postTown := trimB (data.getD 8 []) } else p
  let p := if 9 < data.length then { p with county := trimB (data.getD 9 []) } else p
  let p := if 10 < data.length then { p with country := trimB (data.getD 10 []) } else p
  let p := if 11 < data.length then { p with occupation := trimB (data.getD 11 []) } else p
  let p := if 12 < data.length then { p with nationality := trimB (data.getD 12 []) } else p
  let p := if data.length = 14 then { p with resCountry := trimB (data.getD 13 []) } else p
  p

/-- One attempt of Reader.personRow; onRetry is the value of the
    recursive call personRow("0" + line), supplied by the caller.
    Fixed accesses reach line[72:76], so a line shorter than 76 panics.
    When the variable-length Atoi fails and the first byte is not zero,
    the Go code continues with variableDataLength = 0 and returns the
    partial record together with the raw Atoi error.
    When the Atoi succeeds, the slice line[76 : 76+v] panics unless
    0 <= v and 76 + v <= len(line).
    As in companyRow, the discriminator-mismatch error is overwritten by
    the Atoi assignment and never escapes. -/
def personRowStep (l : List Nat) (onRetry : Option (Person × Option Msg)) :
    Option (Person × Option Msg) :=
  if l.length < 76 then none
  else
    match goAtoi (trimB ((l.drop 72).take 4)) with
    | .ok v =>
      if 0 ≤ v ∧ (76 + v : Int) ≤ (l.length : Int) then
        some (fillVar (personFixed l) (splitB ((l.drop 76).take v.toNat)), none)
      else none
    | .error e =>
      if l.get? 0 = some 48 then
        if l.get? 1 = some 48 then
          some (personFixed l, some (str "error reading variable data length: " ++ e))
        else onRetry
      else some (fillVar (personFixed l) (splitB []), some e)

/-- Reader.personRow: the repair recursion unrolled once. The inner
    continuation is unreachable (the prepended line starts with two zero
    bytes); personRowStep_indep and personRow_fix below prove the choice
    immaterial and that this definition satisfies the recursion of the
    source function. -/
def personRow (l : List Nat) : Option (Person × Option Msg) :=
  personRowStep l (personRowStep (48 :: l) none)

abbrev Out := Option (Option Msg × St × List Rec)

/-- One attempt of Reader.line; onRetry is the value of the recursive
    call line("0" + line, i, pt, ct) in the repair branch. -/
def lineStep (r : Reader) (l : List Nat) (i : Nat) (st : St) (onRetry : Out) : Out :=
  if i = 0 then
    match headerRow l with
    | none => none
    | some (_, some e) => some (some (str "error processing header row: " ++ e), st, [])
    | some (h, none) =>
      match r.headerHandler h with
      | some e => some (some (str "error processing header handler: " ++ e), st, [.header h])
      | none => some (none, st, [.header h])
  else if l.length < 8 then none
  else if l.take 8 = trailerId then
    if l.length < 16 then none
    else
      match goAtoi (trimB ((l.drop 8).take 8)) with
      | .error e => some (some (str "error processing trailer record row: " ++ e), st, [])
      | .ok v =>
        match r.footerHandler ⟨v⟩ with
        | some e => some (some (str "error processing footer handler: " ++ e), st, [.footer ⟨v⟩])
        | none =>
          if v ≠ (st.ct + st.pt : Int) then
            some (some (str "unexpected number of records: " ++ intStr v), st, [.footer ⟨v⟩])
          else some (none, st, [.footer ⟨v⟩])
  else if l.length < 9 then none
  else if l.get? 8 = some 49 then
    match companyRow l with
    | none => none
    | some (_, some e) => some (some (str "error processing Company row: " ++ e), st, [])
    | some (c, none) =>
      match r.companyHandler c with
      | some e =>
        some (some (str "error processing Company handler: " ++ e), { st with ct := st.ct + 1 }, [.company c])
      | none => some (none, { st with ct := st.ct + 1 }, [.company c])
  else if l.get? 8 = some 50 then
    match personRow l with
    | none => none
    | some (_, some e) => some (some (str "error processing Person row: " ++ e), st, [])
    | some (p, none) =>
      match r.personHandler p with
      | some e =>
        some (some (str "error processing Person handler: " ++ e), { st with pt := st.pt + 1 }, [.person p])
      | none => some (none, { st with pt := st.pt + 1 }, [.person p])
  else if l.get? 0 = some 48 then
    if l.get? 1 = some 48 then some (some (str "unhandled record: " ++ l), st, [])
    else onRetry
  else some (none, st, [])

/-- Reader.line: the repair recursion unrolled once; lineStep_indep and
    line_fix below prove the inner continuation unreachable and that this
    definition satisfies the recursion of the source function. -/
def line (r : Reader) (l : List Nat) (i : Nat) (st : St) : Out :=
  lineStep r l i st (lineStep r (48 :: l) i st none)

/-- The error wrapper applied by Extract before handing an error to errH:
    fmt.Errorf("error: %w handling line: %s", err, string(line)). -/
def wrapE (eo : Option Msg) (l : List Nat) : List Msg :=
  match eo with
  | none => []
  | some e => [str "error: " ++ e ++ str " handling line: " ++ l]

/-- The producing loop of Extract over the lines of one entry: each line is
    processed in order, errors go to the errH sink, and i increments. -/
def runLines (r : Reader) : List (List Nat) → Nat → St → List Msg → List Rec →
    Option (St × List Msg × List Rec)
  | [], _, st, sink, recs => some (st, sink, recs)
  | l :: rest, i, st, sink, recs =>
    match line r l i st with
    | none => none
    | some (eo, st2, rs) => runLines r rest (i + 1) st2 (sink ++ wrapE eo l) (recs ++ rs)

/-
  Small-step interleaving semantics for the worker pool of Extract.
  The producer processes each scanned line itself and never sends on
  lineChan (faithful to the source); workers select on doneChan and
  lineChan, process a line when the queue offers one, and relay
  concurrency-1 done signals when they receive done.
-/

inductive WState where
  | sel
  | relay (k : Nat)
  | done
deriving DecidableEq

inductive PState where
  | producing
  | waiting
deriving DecidableEq

structure Cfg where
  rem : List (List Nat)
  i : Nat
  st : St
  sink : List Msg
  recs : List Rec
  prodDone : List (List Nat)
  wrkDone : List (List Nat)
  queue : List (List Nat)
  pstate : PState
  workers : List WState
deriving DecidableEq

def initCfg (n : Nat) (lines : List (List Nat)) : Cfg :=
  ⟨lines, 0, ⟨0, 0⟩, [], [], [], [], [], .producing, List.replicate n .sel⟩

inductive Step (r : Reader) : Cfg → Cfg → Prop where
  | produce (l : List Nat) (rest : List (List Nat)) (i : Nat) (st : St) (sink : List Msg)
      (recs : List Rec) (pl wl q : List (List Nat)) (ws : List WState)
      (eo : Option Msg) (st2 : St) (rs : List Rec)
      (hline : line r l i st = some (eo, st2, rs)) :
      Step r ⟨l :: rest, i, st, sink, recs, pl, wl, q, .producing, ws⟩
             ⟨rest, i + 1, st2, sink ++ wrapE eo l, recs ++ rs, pl ++ [l], wl, q, .producing, ws⟩
  | sendDone (i : Nat) (st : St) (sink : List Msg) (recs : List Rec)
      (pl wl q : List (List Nat)) (ws : List WState) (j : Nat)
      (hj : ws.get? j = some .sel) :
      Step r ⟨[], i, st, sink, recs, pl, wl, q, .producing, ws⟩
             ⟨[], i, st, sink, recs, pl, wl, q, .waiting, ws.set j (.relay (ws.length - 1))⟩
  | relay (rem : List (List Nat)) (i : Nat) (st : St) (sink : List Msg) (recs : List Rec)
      (pl wl q : List (List Nat)) (p : PState) (ws : List WState) (a b k : Nat)
      (ha : ws.get? a = some (.relay (k + 1))) (hb : ws.get? b = some .sel) (hab : a ≠ b) :
      Step r ⟨rem, i, st, sink, recs, pl, wl, q, p, ws⟩
             ⟨rem, i, st, sink, recs, pl, wl, q, p, (ws.set a (.relay k)).set b (.relay (ws.length - 1))⟩
  | relayDone (rem : List (List Nat)) (i : Nat) (st : St) (sink : List Msg) (recs : List Rec)
      (pl wl q : List (List Nat)) (p : PState) (ws : List WState) (a : Nat)
      (ha : ws.get? a = some (.relay 0)) :
      Step r ⟨rem, i, st, sink, recs, pl, wl, q, p, ws⟩
             ⟨rem, i, st, sink, recs, pl, wl, q, p, ws.set a .done⟩
  | takeLine (rem : List (List Nat)) (i : Nat) (st : St) (sink : List Msg) (recs : List Rec)
      (pl wl : List (List Nat)) (l : List Nat) (q : List (List Nat)) (p : PState)
      (ws : List WState) (a : Nat) (eo : Option Msg) (st2 : St) (rs : List Rec)
      (ha : ws.get? a = some .sel)
      (hline : line r l i st = some (eo, st2, rs)) :
      Step r ⟨rem, i, st, sink, recs, pl, wl, l :: q, p, ws⟩
             ⟨rem, i, st2, sink ++ wrapE eo l, recs ++ rs, pl, wl ++ [l], q, p, ws⟩

inductive Reach (r : Reader) (c0 : Cfg) : Cfg → Prop where
  | refl : Reach r c0 c0
  | tail {c c' : Cfg} : Reach r c0 c → Step r c c' → Reach r c0 c'

/-- Pending done-relay debt of one worker: a worker in relay k still has k
    done signals to send on the unbuffered doneChan before it can return. -/
def wRelay : WState → Nat
  | .relay k => k
  | _ => 0

/-- Total number of done signals the workers still have to send. -/
def relaySum (ws : List WState) : Nat := (ws.map wRelay).sum

/-- The state in which eg.Wait returns for the current entry: the scanner
    is drained, the producer has sent its done signal, and every worker has
    returned. Extract proceeds past the entry exactly from such a state. -/
def entryTerminal (c : Cfg) : Prop :=
  c.rem = [] ∧ c.pstate = .waiting ∧ ∀ w ∈ c.workers, w = .done

/-- Reader.Extract terminates on the given entry list with the given result
    (none is a nil return; the workers always return nil, so eg.Wait never
    yields an error). An entry that cannot be opened returns its error at
    once; an opened entry must be carried by the pool machine to a state in
    which eg.Wait returns before the remaining entries are processed. -/
inductive ExtractRet (r : Reader) (n : Nat) :
    List (Except Msg (List (List Nat))) → Option Msg → Prop where
  | nilEntries : ExtractRet r n [] none
  | openFail (e : Msg) (rest : List (Except Msg (List (List Nat)))) :
      ExtractRet r n (.error e :: rest) (some e)
  | entry (lines : List (List Nat)) (rest : List (Except Msg (List (List Nat))))
      (c : Cfg) (res : Option Msg)
      (hre : Reach r (initCfg n lines) c) (hterm : entryTerminal c)
      (hrest : ExtractRet r n rest res) :
      ExtractRet r n (.ok lines :: rest) res

/-- Reader.Extract at the archive level: a zip.OpenReader failure returns
    its error; otherwise the entry list decides the result. -/
inductive ExtractGoRet (r : Reader) (n : Nat) :
    Except Msg (List (Except Msg (List (List Nat)))) → Option Msg → Prop where
  | openFail (e : Msg) : ExtractGoRet r n (.error e) (some e)
  | entries (es : List (Except Msg (List (List Nat)))) (res : Option Msg)
      (h : ExtractRet r n es res) : ExtractGoRet r n (.ok es) res

/- Concrete inputs used by witnesses and counterexamples. -/

/-- The Company line from the repository test Test_Company_Name. -/
def cmpT3 : List Nat := str "000000841D                      00000019A. WEST & PARTNERS<"

def cmpT3Rec : Company := ⟨str "00000084", str "D", str "0000", str "A. WEST & PARTNERS"⟩

def hdrBad : List Nat := str "XXXXXXXX"

def hdrLine : List Nat := str "DDDDSNAP000120240102"

def recHdr : Rec := .header ⟨1, ⟨2024, 1, 2⟩⟩

def ftr42 : List Nat := str "9999999900000042"

def skipLine : List Nat := str "XXXXXXXXX"

def zzLine : List Nat := str "00XXXXXXX"

def rtLine : List Nat := str "0X34567ZZ"

def c7Line : List Nat := str "000008411D                      00019999"

/-- Person line, 80 bytes, variable-length field 0099: 76 + 99 > 80. -/
def pOver : List Nat :=
  str "002345672001123456789012        20200101        AB1 2CD 190001  190001010099ABCD"

/-- Person line starting with two zero bytes whose variable-length field is
    not numeric. -/
def pZZ : List Nat :=
  str "002345672001123456789012        20200101        AB1 2CD 190001  19000101XYZWABCD"

def boomReader : Reader :=
  ⟨fun _ => none, fun _ => some (str "boom"), fun _ => none, fun _ => none⟩

def c1Cfg : Cfg := ⟨[], 1, ⟨0, 0⟩, [], [recHdr], [hdrLine], [], [], .producing, [.sel, .sel]⟩

/-- The error errH receives when the entry header line XXXXXXXX fails to
    decode. -/
def c3Msg : Msg :=
  str "error: " ++ (str "error processing header row: "
    ++ str "header line does not start with DDDDSNAP") ++ str " handling line: " ++ hdrBad

/-- Terminal configuration of a one-worker run over the entry
    [hdrBad, cmpT3]: header error in the sink, the Company record
    dispatched, producer waiting, worker returned. -/
def c3Cfg : Cfg :=
  ⟨[], 2, ⟨1, 0⟩, [c3Msg], [.company cmpT3Rec], [hdrBad, cmpT3], [], [], .waiting, [.done]⟩

/-
  Helper lemmas.
-/

/-- When the second byte is already a zero (in particular on any line the
    repair has prepended to), the repair branch of lineStep cannot fire, so
    the value supplied for the recursive call is irrelevant. -/
theorem lineStep_indep (r : Reader) (l : List Nat) (i : Nat) (st : St) (x y : Out)
    (h : l.get? 0 = some 48 → l.get? 1 = some 48) :
    lineStep r l i st x = lineStep r l i st y := by
  unfold lineStep
  split_ifs <;> try rfl
  all_goals exact absurd (h ‹l.get? 0 = some 48›) ‹¬l.get? 1 = some 48›

/-- line satisfies the recursion of the source function: the repair branch
    re-enters the full function on the zero-prepended line. -/
theorem line_fix (r : Reader) (l : List Nat) (i : Nat) (st : St) :
    line r l i st = lineStep r l i st (line r (48 :: l) i st) := by
  unfold line
  by_cases h0 : l.get? 0 = some 48
  · by_cases h1 : l.get? 1 = some 48
    · exact lineStep_indep r l i st _ _ (fun _ => h1)
    · have hinner : lineStep r (48 :: l) i st none =
          lineStep r (48 :: l) i st (lineStep r (48 :: 48 :: l) i st none) :=
        lineStep_indep r (48 :: l) i st _ _ (fun _ => h0)
      rw [hinner]
  · exact lineStep_indep r l i st _ _ (fun hc => absurd hc h0)

/-- personRowStep counterpart of lineStep_indep. -/
theorem personRowStep_indep (l : List Nat) (x y : Option (Person × Option Msg))
    (h : l.get? 0 = some 48 → l.get? 1 = some 48) :
    personRowStep l x = personRowStep l y := by
  unfold personRowStep
  cases goAtoi (trimB ((l.drop 72).take 4)) with
  | ok v => rfl
  | error e =>
    dsimp only
    split_ifs <;> try rfl
    all_goals exact absurd (h ‹l.get? 0 = some 48›) ‹¬l.get? 1 = some 48›

/-- personRow satisfies the recursion of the source function. -/
theorem personRow_fix (l : List Nat) :
    personRow l = personRowStep l (personRow (48 :: l)) := by
  unfold personRow
  by_cases h0 : l.get? 0 = some 48
  · by_cases h1 : l.get? 1 = some 48
    · exact personRowStep_indep l _ _ (fun _ => h1)
    · have hinner : personRowStep (48 :: l) none =
          personRowStep (48 :: l) (personRowStep (48 :: 48 :: l) none) :=
        personRowStep_indep (48 :: l) _ _ (fun _ => h0)
      rw [hinner]
  · exact personRowStep_indep l _ _ (fun hc => absurd hc h0)

/-- Processing one more line at the end of the producing loop. -/
theorem runLines_snoc (r : Reader) (xs : List (List Nat)) (l : List Nat) (i : Nat) (st : St)
    (sink : List Msg) (recs : List Rec) :
    runLines r (xs ++ [l]) i st sink recs =
      match runLines r xs i st sink recs with
      | none => none
      | some (st1, sink1, recs1) =>
        match line r l (i + xs.length) st1 with
        | none => none
        | some (eo, st2, rs) => some (st2, sink1 ++ wrapE eo l, recs1 ++ rs) := by
  induction xs generalizing i st sink recs with
  | nil => simp [runLines]
  | cons x xs ih =>
    simp only [List.cons_append, runLines]
    cases hx : line r x i st with
    | none => rfl
    | some v =>
      obtain ⟨eo, st2, rs⟩ := v
      dsimp only
      simp only [List.append_eq]
      rw [ih]
      have hn : i + 1 + xs.length = i + (x :: xs).length := by
        simp only [List.length_cons]
        omega
      rw [hn]

/-- Reachability invariant of the pool machine: the queue stays empty (the
    producer never enqueues), no worker ever processes a line, the lines
    processed so far are exactly the leading portion of the entry in order,
    and the counters, sink and dispatched records agree with the sequential
    producing loop over those lines. -/
theorem reach_inv (r : Reader) (lines : List (List Nat)) (n : Nat) (c : Cfg)
    (h : Reach r (initCfg n lines) c) :
    c.queue = [] ∧ c.wrkDone = [] ∧ lines = c.prodDone ++ c.rem ∧
    c.i = c.prodDone.length ∧
    runLines r c.prodDone 0 ⟨0, 0⟩ [] [] = some (c.st, c.sink, c.recs) := by
  induction h with
  | refl => exact ⟨rfl, rfl, rfl, rfl, rfl⟩
  | tail hr hs ih =>
    cases hs with
    | produce l rest i st sink recs pl wl q ws eo st2 rs hline =>
      obtain ⟨hq, hw, hlines, hi, hrun⟩ := ih
      refine ⟨hq, hw, ?_, ?_, ?_⟩
      · simp only at hlines ⊢
        rw [hlines]
        simp
      · simp only at hi ⊢
        simp [hi]
      · simp only at hrun hi ⊢
        rw [runLines_snoc, hrun]
        dsimp only
        have h0 : (0 : Nat) + pl.length = i := by omega
        rw [h0, hline]
    | sendDone i st sink recs pl wl q ws j hj =>
      exact ih
    | relay rem i st sink recs pl wl q p ws a b k ha hb hab =>
      exact ih
    | relayDone rem i st sink recs pl wl q p ws a ha =>
      exact ih
    | takeLine rem i st sink recs pl wl l q p ws a eo st2 rs ha hline =>
      obtain ⟨hq, _, _, _, _⟩ := ih
      exact absurd hq (by simp)

/-
  Claim theorems.
-/

/-- C1: for every entry and every concurrency level N >= 1, in every
    reachable configuration of the pool machine the queue is empty and no
    worker has processed a line, the lines handled so far are exactly the
    leading portion of the entry, each handled exactly once (by the
    producing loop), and the counters, reported errors and dispatched
    records are those of fully sequential processing; once the producer has
    consumed the entry, the final counters equal the sequential (N = 1)
    result. -/
theorem c1_concurrency_exactly_once (r : Reader) (lines : List (List Nat)) (n : Nat) (c : Cfg)
    (hn : 1 ≤ n) (h : Reach r (initCfg n lines) c) :
    (c.queue = [] ∧ c.wrkDone = [] ∧ lines = c.prodDone ++ c.rem ∧
      runLines r c.prodDone 0 ⟨0, 0⟩ [] [] = some (c.st, c.sink, c.recs)) ∧
    (c.rem = [] → c.prodDone = lines ∧
      runLines r lines 0 ⟨0, 0⟩ [] [] = some (c.st, c.sink, c.recs)) := by
  obtain ⟨hq, hw, hl, hi, hrun⟩ := reach_inv r lines n c h
  refine ⟨⟨hq, hw, hl, hrun⟩, fun hrem => ?_⟩
  have hpd : c.prodDone = lines := by rw [hl, hrem, List.append_nil]
  exact ⟨hpd, hpd ▸ hrun⟩

/-- C1 witness: with two workers, after the producer has handled the single
    header line of the entry, the reachable configuration has empty queue,
    no worker activity, and the sequential counters. -/
theorem c1_witness :
    (1 ≤ 2 ∧ Reach noopReader (initCfg 2 [hdrLine]) c1Cfg) ∧
    c1Cfg.queue = [] ∧ c1Cfg.wrkDone = [] ∧ c1Cfg.rem = [] ∧ c1Cfg.prodDone = [hdrLine] ∧
    runLines noopReader [hdrLine] 0 ⟨0, 0⟩ [] [] = some (c1Cfg.st, c1Cfg.sink, c1Cfg.recs) := by
  have hline : line noopReader hdrLine 0 ⟨0, 0⟩ = some (none, ⟨0, 0⟩, [recHdr]) := by decide
  have hstep : Step noopReader (initCfg 2 [hdrLine]) c1Cfg :=
    Step.produce hdrLine [] 0 ⟨0, 0⟩ [] [] [] [] [] [.sel, .sel] none ⟨0, 0⟩ [recHdr] hline
  have hreach : Reach noopReader (initCfg 2 [hdrLine]) c1Cfg := Reach.tail Reach.refl hstep
  have h := c1_concurrency_exactly_once noopReader [hdrLine] 2 c1Cfg (by omega) hreach
  exact ⟨⟨by omega, hreach⟩, h.1.1, h.1.2.1, rfl, (h.2 rfl).1, (h.2 rfl).2⟩

/-- C2 (amended): on a Footer line the 8-digit count is parsed, the footer
    handler is invoked before the reconciliation check (a handler error
    short-circuits the check), and a mismatch yields the error
    "unexpected number of records: <declared>", which carries the declared
    count only; the counters are unchanged in every case. -/
theorem c2_footer_reconciliation (r : Reader) (l : List Nat) (i : Nat) (st : St) (v : Int)
    (hi : i ≠ 0) (h8 : ¬ l.length < 8) (htr : l.take 8 = trailerId) (h16 : ¬ l.length < 16)
    (hv : goAtoi (trimB ((l.drop 8).take 8)) = .ok v) :
    (∀ e, r.footerHandler ⟨v⟩ = some e →
      line r l i st = some (some (str "error processing footer handler: " ++ e), st, [.footer ⟨v⟩])) ∧
    (r.footerHandler ⟨v⟩ = none → v ≠ (st.ct + st.pt : Int) →
      line r l i st = some (some (str "unexpected number of records: " ++ intStr v), st, [.footer ⟨v⟩])) ∧
    (r.footerHandler ⟨v⟩ = none → v = (st.ct + st.pt : Int) →
      line r l i st = some (none, st, [.footer ⟨v⟩])) := by
  unfold line lineStep
  refine ⟨?_, ?_, ?_⟩
  · intro e he
    simp [hi, h8, htr, h16, hv, he]
  · intro hno hne
    simp [hi, h8, htr, h16, hv, hno, hne]
  · intro hno heq
    subst heq
    simp [hi, h8, htr, h16, hv, hno]

/-- C2 witness: a Footer declaring 42 against 41 observed records yields the
    mismatch error carrying the declared count. -/
theorem c2_witness :
    line noopReader ftr42 1 ⟨41, 0⟩ =
      some (some (str "unexpected number of records: " ++ intStr 42), ⟨41, 0⟩, [.footer ⟨42⟩]) :=
  (c2_footer_reconciliation noopReader ftr42 1 ⟨41, 0⟩ 42 (by decide) (by decide) (by decide)
    (by decide) (by decide)).2.1 rfl (by decide)

/-- C2 counterexample: two runs with different observed counts (41 and 40)
    against the same declared count produce byte-identical mismatch errors,
    so the error does not carry the observed count. -/
theorem c2_counterexample :
    line noopReader ftr42 1 ⟨41, 0⟩ =
      some (some (str "unexpected number of records: 42"), ⟨41, 0⟩, [.footer ⟨42⟩]) ∧
    line noopReader ftr42 1 ⟨40, 0⟩ =
      some (some (str "unexpected number of records: 42"), ⟨40, 0⟩, [.footer ⟨42⟩]) := by
  exact ⟨by decide, by decide⟩

theorem reach_trans (r : Reader) {a b c : Cfg} (h1 : Reach r a b) (h2 : Reach r b c) :
    Reach r a c := by
  induction h2 with
  | refl => exact h1
  | tail hbc hs ih => exact Reach.tail ih hs

theorem relaySum_set (ws : List WState) (a : Nat) (x w : WState) (ha : ws.get? a = some w) :
    relaySum (ws.set a x) + wRelay w = relaySum ws + wRelay x := by
  induction ws generalizing a with
  | nil => simp at ha
  | cons y ys ih =>
    cases a with
    | zero =>
      simp only [List.get?] at ha
      injection ha with ha
      subst ha
      simp [relaySum]
      omega
    | succ m =>
      simp only [List.get?] at ha
      have := ih m ha
      simp [relaySum] at this ⊢
      omega

theorem relaySum_replicate_sel (n : Nat) : relaySum (List.replicate n .sel) = 0 := by
  induction n with
  | zero => rfl
  | succ m ih =>
    simp only [List.replicate_succ, relaySum, List.map_cons, List.sum_cons, wRelay] at ih ⊢
    omega

theorem relaySum_all_done (ws : List WState) (h : ∀ w ∈ ws, w = .done) : relaySum ws = 0 := by
  induction ws with
  | nil => rfl
  | cons y ys ih =>
    have hy := h y (by simp)
    subst hy
    have := ih (fun w hw => h w (by simp [hw]))
    simp [relaySum, wRelay] at this ⊢
    exact this

theorem produce_phase (r : Reader) : ∀ (rem : List (List Nat)) (i : Nat) (st : St)
    (sink : List Msg) (recs : List Rec) (pl wl q : List (List Nat)) (ws : List WState)
    (st2 : St) (sink2 : List Msg) (recs2 : List Rec),
    runLines r rem i st sink recs = some (st2, sink2, recs2) →
    Reach r ⟨rem, i, st, sink, recs, pl, wl, q, .producing, ws⟩
            ⟨[], i + rem.length, st2, sink2, recs2, pl ++ rem, wl, q, .producing, ws⟩ := by
  intro rem
  induction rem with
  | nil =>
    intro i st sink recs pl wl q ws st2 sink2 recs2 h
    unfold runLines at h
    simp only [Option.some.injEq, Prod.mk.injEq] at h
    obtain ⟨h1, h2, h3⟩ := h
    subst h1
    subst h2
    subst h3
    rw [List.append_nil]
    exact Reach.refl
  | cons l rest ih =>
    intro i st sink recs pl wl q ws st2 sink2 recs2 h
    unfold runLines at h
    cases hl : line r l i st with
    | none => rw [hl] at h; exact absurd h (by simp)
    | some v =>
      obtain ⟨eo, stm, rs⟩ := v
      rw [hl] at h
      dsimp only at h
      have hstep : Step r ⟨l :: rest, i, st, sink, recs, pl, wl, q, .producing, ws⟩
          ⟨rest, i + 1, stm, sink ++ wrapE eo l, recs ++ rs, pl ++ [l], wl, q, .producing, ws⟩ :=
        Step.produce l rest i st sink recs pl wl q ws eo stm rs hl
      have hrest := ih (i + 1) stm (sink ++ wrapE eo l) (recs ++ rs) (pl ++ [l]) wl q ws st2 sink2 recs2 h
      have hall := reach_trans r (Reach.tail Reach.refl hstep) hrest
      have e1 : i + 1 + rest.length = i + (l :: rest).length := by
        simp only [List.length_cons]
        omega
      have e2 : (pl ++ [l]) ++ rest = pl ++ (l :: rest) := by simp
      rw [e1, e2] at hall
      exact hall

/-- Pool invariant: the worker count is fixed; while the producer is still
    producing, no done signal has been sent, so every worker is selecting;
    once the producer is waiting, the total pending relay debt never drops
    below n - 1, because a relay hands one debt on and creates n - 1 more. -/
theorem reach_pool_inv (r : Reader) (lines : List (List Nat)) (n : Nat) (c : Cfg)
    (h : Reach r (initCfg n lines) c) :
    c.workers.length = n ∧
    (c.pstate = .producing → c.workers = List.replicate n .sel) ∧
    (c.pstate = .waiting → n - 1 ≤ relaySum c.workers) := by
  induction h with
  | refl =>
    refine ⟨List.length_replicate n _, fun _ => rfl, fun hw => ?_⟩
    simp [initCfg] at hw
  | tail hr hs ih =>
    cases hs with
    | produce l rest i st sink recs pl wl q ws eo st2 rs hline =>
      exact ih
    | sendDone i st sink recs pl wl q ws j hj =>
      obtain ⟨hlen, hprod, _⟩ := ih
      have hlw : ws.length = n := hlen
      have hws : ws = List.replicate n .sel := hprod rfl
      refine ⟨?_, fun hc => PState.noConfusion hc, fun _ => ?_⟩
      · show (ws.set j (.relay (ws.length - 1))).length = n
        simp [hlw]
      · show n - 1 ≤ relaySum (ws.set j (.relay (ws.length - 1)))
        have hset := relaySum_set ws j (.relay (ws.length - 1)) .sel hj
        have hz : relaySum ws = 0 := by rw [hws]; exact relaySum_replicate_sel n
        simp only [wRelay] at hset
        omega
    | relay rem i st sink recs pl wl q p ws a b k ha hb hab =>
      obtain ⟨hlen, hprod, hwait⟩ := ih
      have hlw : ws.length = n := hlen
      have ha' : a < ws.length := by
        obtain ⟨hlt, _⟩ := List.get?_eq_some.mp ha
        exact hlt
      have hb' : b < ws.length := by
        obtain ⟨hlt, _⟩ := List.get?_eq_some.mp hb
        exact hlt
      refine ⟨?_, fun hc => ?_, fun hc => ?_⟩
      · show ((ws.set a (.relay k)).set b (.relay (ws.length - 1))).length = n
        simp [hlw]
      · exfalso
        have hws : ws = List.replicate n .sel := hprod hc
        rw [hws] at ha
        simp only [List.get?_eq_getElem?, List.getElem?_replicate] at ha
        by_cases hlt : a < n
        · simp [hlt] at ha
        · simp [hlt] at ha
      · show n - 1 ≤ relaySum ((ws.set a (.relay k)).set b (.relay (ws.length - 1)))
        have hR : n - 1 ≤ relaySum ws := hwait hc
        have hn2 : 2 ≤ n := by omega
        have hset1 := relaySum_set ws a (.relay k) (.relay (k + 1)) ha
        have hbne : (ws.set a (.relay k)).get? b = some .sel := by
          rw [List.get?_set_ne _ ws hab]
          exact hb
        have hset2 := relaySum_set (ws.set a (.relay k)) b (.relay (ws.length - 1)) .sel hbne
        simp only [wRelay] at hset1 hset2
        omega
    | relayDone rem i st sink recs pl wl q p ws a ha =>
      obtain ⟨hlen, hprod, hwait⟩ := ih
      have hlw : ws.length = n := hlen
      refine ⟨?_, fun hc => ?_, fun hc => ?_⟩
      · show (ws.set a .done).length = n
        simp [hlw]
      · exfalso
        have hws : ws = List.replicate n .sel := hprod hc
        rw [hws] at ha
        simp only [List.get?_eq_getElem?, List.getElem?_replicate] at ha
        by_cases hlt : a < n
        · simp [hlt] at ha
        · simp [hlt] at ha
      · show n - 1 ≤ relaySum (ws.set a .done)
        have hR : n - 1 ≤ relaySum ws := hwait hc
        have hset := relaySum_set ws a .done (.relay 0) ha
        simp only [wRelay] at hset
        omega
    | takeLine rem i st sink recs pl wl l q p ws a eo st2 rs ha hline =>
      exact ih

/-- With two or more workers the done-relay handshake can never complete:
    eg.Wait never returns, so Extract never returns past the entry. -/
theorem pool_no_terminal (r : Reader) (n : Nat) (lines : List (List Nat)) (c : Cfg)
    (hn : 2 ≤ n) (h : Reach r (initCfg n lines) c) (hterm : entryTerminal c) : False := by
  obtain ⟨hlen, hprod, hwait⟩ := reach_pool_inv r lines n c h
  obtain ⟨hrem, hpw, hdone⟩ := hterm
  have hR := hwait hpw
  have hz : relaySum c.workers = 0 := relaySum_all_done c.workers hdone
  omega

/-- C3 (amended): Extract returns a terminal error exactly when the archive
    or an entry cannot be opened; every per-line or per-handler failure, a
    Header decode failure included, goes to the error sink and processing
    continues. With concurrency 1 Extract then returns nil, provided no
    line panics; with concurrency at least 2 the done-relay handshake can
    never complete, so Extract never returns on any openable entry. -/
theorem c3_terminal_errors :
    (∀ (r : Reader) (n : Nat) (e : Msg), ExtractGoRet r n (.error e) (some e)) ∧
    (∀ (r : Reader) (n : Nat) (e : Msg) (rest : List (Except Msg (List (List Nat)))),
      ExtractRet r n (.error e :: rest) (some e)) ∧
    (∀ (r : Reader) (n : Nat) (e : Msg) (rest : List (Except Msg (List (List Nat))))
      (res : Option Msg), ExtractRet r n (.error e :: rest) res → res = some e) ∧
    (∀ (r : Reader) (lines : List (List Nat)) (st : St) (sink : List Msg) (recs : List Rec),
      runLines r lines 0 ⟨0, 0⟩ [] [] = some (st, sink, recs) →
      (∃ c : Cfg, Reach r (initCfg 1 lines) c ∧ entryTerminal c ∧
        c.st = st ∧ c.sink = sink ∧ c.recs = recs) ∧
      ExtractRet r 1 [.ok lines] none) ∧
    (∀ (r : Reader) (n : Nat) (lines : List (List Nat))
      (rest : List (Except Msg (List (List Nat)))) (res : Option Msg),
      2 ≤ n → ¬ ExtractRet r n (.ok lines :: rest) res) := by
  refine ⟨fun r n e => ExtractGoRet.openFail e,
          fun r n e rest => ExtractRet.openFail e rest,
          fun r n e rest res h => ?_,
          fun r lines st sink recs h => ?_,
          fun r n lines rest res hn h => ?_⟩
  · cases h with
    | openFail => rfl
  · have h1 : Reach r (initCfg 1 lines)
        ⟨[], 0 + lines.length, st, sink, recs, [] ++ lines, [], [], .producing, [.sel]⟩ :=
      produce_phase r lines 0 ⟨0, 0⟩ [] [] [] [] [] [.sel] st sink recs h
    have h2 : Step r ⟨[], 0 + lines.length, st, sink, recs, [] ++ lines, [], [], .producing, [.sel]⟩
        ⟨[], 0 + lines.length, st, sink, recs, [] ++ lines, [], [], .waiting, [.relay 0]⟩ :=
      Step.sendDone (0 + lines.length) st sink recs ([] ++ lines) [] [] [.sel] 0 rfl
    have h3 : Step r ⟨[], 0 + lines.length, st, sink, recs, [] ++ lines, [], [], .waiting, [.relay 0]⟩
        ⟨[], 0 + lines.length, st, sink, recs, [] ++ lines, [], [], .waiting, [.done]⟩ :=
      Step.relayDone [] (0 + lines.length) st sink recs ([] ++ lines) [] [] .waiting [.relay 0] 0 rfl
    have hr : Reach r (initCfg 1 lines)
        ⟨[], 0 + lines.length, st, sink, recs, [] ++ lines, [], [], .waiting, [.done]⟩ :=
      Reach.tail (Reach.tail h1 h2) h3
    have hterm : entryTerminal
        ⟨[], 0 + lines.length, st, sink, recs, [] ++ lines, [], [], .waiting, [.done]⟩ :=
      ⟨rfl, rfl, by intro w hw; simpa using hw⟩
    exact ⟨⟨_, hr, hterm, rfl, rfl, rfl⟩,
      ExtractRet.entry lines [] _ none hr hterm ExtractRet.nilEntries⟩
  · cases h with
    | entry _ _ c _ hre hterm hrest => exact pool_no_terminal r n lines c hn hre hterm

/-- C3 witness: with one worker, an entry whose header line fails to decode
    still ends in a nil return, a failed entry open returns its error, and
    with two workers the same openable entry never lets Extract return. -/
theorem c3_witness :
    ExtractRet noopReader 1 [.ok [hdrBad]] none ∧
    ExtractRet noopReader 1 [.error (str "boom")] (some (str "boom")) ∧
    ¬ ExtractRet noopReader 2 [.ok [hdrBad]] none := by
  refine ⟨(c3_terminal_errors.2.2.2.1 noopReader [hdrBad] ⟨0, 0⟩ [c3Msg] [] (by decide)).2,
          c3_terminal_errors.2.1 noopReader 1 (str "boom") [],
          c3_terminal_errors.2.2.2.2 noopReader 2 [hdrBad] [] none (by omega)⟩

/-- C3 counterexample: the Header line of the entry fails to decode, yet
    Extract does not abort: with concurrency 1 the run reaches the state in
    which eg.Wait returns, the header error is in the sink, the following
    Company line was still processed and dispatched, and the result is a
    nil return, refuting the claim that a Header decode failure is a
    terminal error. -/
theorem c3_counterexample :
    ExtractRet noopReader 1 [.ok [hdrBad, cmpT3]] none ∧
    Reach noopReader (initCfg 1 [hdrBad, cmpT3]) c3Cfg ∧ entryTerminal c3Cfg ∧
    c3Cfg.sink = [c3Msg] ∧ c3Cfg.recs = [.company cmpT3Rec] ∧ c3Cfg.st = ⟨1, 0⟩ := by
  have hl1 : line noopReader hdrBad 0 ⟨0, 0⟩ =
      some (some (str "error processing header row: "
        ++ str "header line does not start with DDDDSNAP"), ⟨0, 0⟩, []) := by decide
  have hl2 : line noopReader cmpT3 1 ⟨0, 0⟩ = some (none, ⟨1, 0⟩, [.company cmpT3Rec]) := by
    decide
  have h1 : Step noopReader (initCfg 1 [hdrBad, cmpT3])
      ⟨[cmpT3], 1, ⟨0, 0⟩, [c3Msg], [], [hdrBad], [], [], .producing, [.sel]⟩ :=
    Step.produce hdrBad [cmpT3] 0 ⟨0, 0⟩ [] [] [] [] [] [.sel]
      (some (str "error processing header row: "
        ++ str "header line does not start with DDDDSNAP")) ⟨0, 0⟩ [] hl1
  have h2 : Step noopReader
      ⟨[cmpT3], 1, ⟨0, 0⟩, [c3Msg], [], [hdrBad], [], [], .producing, [.sel]⟩
      ⟨[], 2, ⟨1, 0⟩, [c3Msg], [.company cmpT3Rec], [hdrBad, cmpT3], [], [], .producing, [.sel]⟩ :=
    Step.produce cmpT3 [] 1 ⟨0, 0⟩ [c3Msg] [] [hdrBad] [] [] [.sel]
      none ⟨1, 0⟩ [.company cmpT3Rec] hl2
  have h3 : Step noopReader
      ⟨[], 2, ⟨1, 0⟩, [c3Msg], [.company cmpT3Rec], [hdrBad, cmpT3], [], [], .producing, [.sel]⟩
      ⟨[], 2, ⟨1, 0⟩, [c3Msg], [.company cmpT3Rec], [hdrBad, cmpT3], [], [], .waiting, [.relay 0]⟩ :=
    Step.sendDone 2 ⟨1, 0⟩ [c3Msg] [.company cmpT3Rec] [hdrBad, cmpT3] [] [] [.sel] 0 rfl
  have h4 : Step noopReader
      ⟨[], 2, ⟨1, 0⟩, [c3Msg], [.company cmpT3Rec], [hdrBad, cmpT3], [], [], .waiting, [.relay 0]⟩
      c3Cfg :=
    Step.relayDone [] 2 ⟨1, 0⟩ [c3Msg] [.company cmpT3Rec] [hdrBad, cmpT3] [] [] .waiting
      [.relay 0] 0 rfl
  have hr : Reach noopReader (initCfg 1 [hdrBad, cmpT3]) c3Cfg :=
    Reach.tail (Reach.tail (Reach.tail (Reach.tail Reach.refl h1) h2) h3) h4
  have hterm : entryTerminal c3Cfg := ⟨rfl, rfl, by intro w hw; simpa [c3Cfg] using hw⟩
  exact ⟨ExtractRet.entry [hdrBad, cmpT3] [] c3Cfg none hr hterm ExtractRet.nilEntries,
    hr, hterm, rfl, rfl, rfl⟩

/-- Evaluation of line on an unclassifiable line starting with two zero
    bytes: the terminal UnhandledRecordError. -/
theorem line_unhandled (r : Reader) (l : List Nat) (i : Nat) (st : St)
    (hi : i ≠ 0) (h8 : ¬ l.length < 8) (htr : l.take 8 ≠ trailerId) (h9 : ¬ l.length < 9)
    (hc : l.get? 8 ≠ some 49) (hp : l.get? 8 ≠ some 50)
    (h0 : l.get? 0 = some 48) (h1 : l.get? 1 = some 48) :
    line r l i st = some (some (str "unhandled record: " ++ l), st, []) := by
  rw [line_fix r l i st]
  unfold lineStep
  simp only [List.get?_eq_getElem?] at hc hp h0 h1
  simp [hi, h8, htr, h9, hc, hp, h0, h1]

/-- Evaluation of line on an unclassifiable line whose first byte is not a
    zero: the silent skip. -/
theorem line_skip (r : Reader) (l : List Nat) (i : Nat) (st : St)
    (hi : i ≠ 0) (h8 : ¬ l.length < 8) (htr : l.take 8 ≠ trailerId) (h9 : ¬ l.length < 9)
    (hc : l.get? 8 ≠ some 49) (hp : l.get? 8 ≠ some 50)
    (h0n : l.get? 0 ≠ some 48) :
    line r l i st = some (none, st, []) := by
  rw [line_fix r l i st]
  unfold lineStep
  simp only [List.get?_eq_getElem?] at hc hp h0n
  simp [hi, h8, htr, h9, hc, hp, h0n]

/-- Evaluation of line on an unclassifiable line with a zero first byte and
    a nonzero second byte: the classification is retried on the line with
    one zero byte prepended. -/
theorem line_retry (r : Reader) (l : List Nat) (i : Nat) (st : St)
    (hi : i ≠ 0) (h8 : ¬ l.length < 8) (htr : l.take 8 ≠ trailerId) (h9 : ¬ l.length < 9)
    (hc : l.get? 8 ≠ some 49) (hp : l.get? 8 ≠ some 50)
    (h0 : l.get? 0 = some 48) (h1n : l.get? 1 ≠ some 48) :
    line r l i st = line r (48 :: l) i st := by
  rw [line_fix r l i st]
  unfold lineStep
  simp only [List.get?_eq_getElem?] at hc hp h0 h1n
  simp [hi, h8, htr, h9, hc, hp, h0, h1n]

/-- Any line one zero byte was prepended to cannot carry the trailer
    marker. -/
theorem cons48_take8_ne_trailer (l : List Nat) : (48 :: l).take 8 ≠ trailerId := by
  have ht : trailerId = [57, 57, 57, 57, 57, 57, 57, 57] := by decide
  rw [ht]
  simp [List.take_succ_cons]

/-- C4 (amended): an unclassifiable line at index > 0 whose first byte is
    the zero character is never silently dropped: with a second zero byte
    the terminal UnhandledRecordError is reported at once, and otherwise
    the zero-prepended retry that still fails classification reports the
    terminal UnhandledRecordError for the corrected line; in both cases no
    record is dispatched. A line whose first byte is not the zero
    character, however, is silently skipped: no error, no record. -/
theorem c4_unhandled_record (r : Reader) (l : List Nat) (i : Nat) (st : St)
    (hi : i ≠ 0) (h8 : ¬ l.length < 8) (htr : l.take 8 ≠ trailerId) (h9 : ¬ l.length < 9)
    (hc : l.get? 8 ≠ some 49) (hp : l.get? 8 ≠ some 50) :
    (l.get? 0 = some 48 → l.get? 1 = some 48 →
      line r l i st = some (some (str "unhandled record: " ++ l), st, [])) ∧
    (l.get? 0 = some 48 → l.get? 1 ≠ some 48 →
      (48 :: l).get? 8 ≠ some 49 → (48 :: l).get? 8 ≠ some 50 →
      line r l i st = some (some (str "unhandled record: " ++ (48 :: l)), st, [])) ∧
    (l.get? 0 ≠ some 48 → line r l i st = some (none, st, [])) := by
  refine ⟨?_, ?_, ?_⟩
  · intro h0 h1
    exact line_unhandled r l i st hi h8 htr h9 hc hp h0 h1
  · intro h0 h1n hc2 hp2
    have hlen8 : ¬ (48 :: l).length < 8 := by simp; omega
    have hlen9 : ¬ (48 :: l).length < 9 := by simp; omega
    have h02 : (48 :: l).get? 0 = some 48 := rfl
    have h12 : (48 :: l).get? 1 = some 48 := h0
    rw [line_retry r l i st hi h8 htr h9 hc hp h0 h1n]
    exact line_unhandled r (48 :: l) i st hi hlen8 (cons48_take8_ne_trailer l) hlen9 hc2 hp2 h02 h12
  · intro h0n
    exact line_skip r l i st hi h8 htr h9 hc hp h0n

/-- C4 witness: a line starting with two zero bytes that fails
    classification reports the UnhandledRecordError and dispatches
    nothing. -/
theorem c4_witness :
    line noopReader zzLine 1 ⟨0, 0⟩ =
      some (some (str "unhandled record: " ++ zzLine), ⟨0, 0⟩, []) :=
  (c4_unhandled_record noopReader zzLine 1 ⟨0, 0⟩ (by decide) (by decide) (by decide)
    (by decide) (by decide) (by decide)).1 (by decide) (by decide)

/-- C4 counterexample: the nine-byte line XXXXXXXXX matches neither the
    trailer marker nor a discriminator and the repair heuristic cannot
    resolve it, yet processing reports no error and dispatches nothing:
    the line is silently skipped, refuting the claim. -/
theorem c4_counterexample :
    line noopReader skipLine 1 ⟨0, 0⟩ = some (none, ⟨0, 0⟩, []) := by
  decide

/-- C5: when the Person variable-section length parses to v with
    76 + v past the end of the line, personRow hits the slice
    line[76 : 76+v] out of bounds and panics; it does not report an error
    and does not return a record. The repository README states the code
    returns without processing the line further, and the spec says an
    error is reported: the missing bounds check is a code bug. -/
theorem c5_person_bounds_overrun (l : List Nat) (v : Int) (h76 : ¬ l.length < 76)
    (hv : goAtoi (trimB ((l.drop 72).take 4)) = .ok v) (h0 : 0 ≤ v)
    (hover : (76 + v : Int) > (l.length : Int)) :
    personRow l = none := by
  have hnot : ¬ (0 ≤ v ∧ (76 + v : Int) ≤ (l.length : Int)) := by
    intro hcon
    omega
  unfold personRow personRowStep
  simp [h76, hv, hnot]

/-- C5 witness: an 80-byte Person line declaring a 99-byte variable
    section panics. -/
theorem c5_witness : personRow pOver = none :=
  c5_person_bounds_overrun pOver 99 (by decide) (by decide) (by decide) (by decide)

/-- C6 (amended): a line shorter than 9 bytes at index > 0 causes an
    out-of-range access (slice line[0:8], index line[8], or slice
    line[8:16] on a trailer marker), so processing panics; it is not
    silently skipped, but no malformed-input error is reported either. -/
theorem c6_short_line_panics (r : Reader) (l : List Nat) (i : Nat) (st : St)
    (hlen : l.length < 9) (hi : i ≠ 0) :
    line r l i st = none := by
  unfold line lineStep
  by_cases h8 : l.length < 8
  · simp [hi, h8]
  · have h16 : l.length < 16 := by omega
    simp [hi, h8, h16, hlen]

/-- C6 witness: an 8-byte line at index 1 panics. -/
theorem c6_witness : line noopReader (str "ABCDEFGH") 1 ⟨0, 0⟩ = none :=
  c6_short_line_panics noopReader (str "ABCDEFGH") 1 ⟨0, 0⟩ (by decide) (by decide)

/-- C6 counterexample: the two-byte line AB at index 1 panics (none);
    it does not yield a reported malformed-input error, refuting the
    claim that short lines are reported rather than crashing. -/
theorem c6_counterexample : line noopReader (str "AB") 1 ⟨0, 0⟩ = none := by
  decide

/-- C7: a Company line whose parsed name length n would read past the end
    of the line decodes to a record with companyNumber, companyStatus and
    numberOfOfficers set, companyName left empty, and no error. -/
theorem c7_company_truncated_name (l : List Nat) (n : Int) (hlen : ¬ l.length < 40)
    (hdisc : l.get? 8 = some 49) (hn : goAtoi (trimB ((l.drop 36).take 4)) = .ok n)
    (hover : (40 + n : Int) > (l.length : Int)) :
    companyRow l = some
      ({ companyNumber := trimB (l.take 8), companyStatus := trimB ((l.drop 9).take 1)
       , numberOfOfficers := trimB ((l.drop 32).take 4), companyName := [] }, none) := by
  unfold companyRow
  simp [hlen, hn, hover]

/-- C7 witness: a 40-byte Company line declaring name length 9999 decodes
    to a partial record with the name unset and no error. -/
theorem c7_witness :
    companyRow c7Line = some (⟨str "00000841", str "D", str "0001", []⟩, none) := by
  have h := c7_company_truncated_name c7Line 9999 (by decide) (by decide) (by decide) (by decide)
  exact h.trans (by decide)

/-- personRow on a line whose variable-length field fails to parse and whose
    first two bytes are zeros: the terminal wrapped parse error. -/
theorem personRow_terminal (l : List Nat) (e : Msg) (h76 : ¬ l.length < 76)
    (he : goAtoi (trimB ((l.drop 72).take 4)) = .error e)
    (h0 : l.get? 0 = some 48) (h1 : l.get? 1 = some 48) :
    personRow l = some (personFixed l, some (str "error reading variable data length: " ++ e)) := by
  unfold personRow personRowStep
  simp only [List.get?_eq_getElem?] at h0 h1
  simp [h76, he, h0, h1]

/-- personRow on a line whose variable-length field fails to parse, first
    byte zero, second byte nonzero: the decode is retried on the line with
    one zero byte prepended. -/
theorem personRow_retry (l : List Nat) (e : Msg) (h76 : ¬ l.length < 76)
    (he : goAtoi (trimB ((l.drop 72).take 4)) = .error e)
    (h0 : l.get? 0 = some 48) (h1n : l.get? 1 ≠ some 48) :
    personRow l = personRow (48 :: l) := by
  rw [personRow_fix l]
  unfold personRowStep
  simp only [List.get?_eq_getElem?] at h0 h1n
  simp [h76, he, h0, h1n]

/-- C8 (amended): both repair sites prepend at most one zero byte. The
    lineStep and personRowStep values are insensitive to the continuation
    supplied for the recursive call whenever a zero first byte forces a
    zero second byte, so the second attempt never recurses again; line and
    personRow satisfy the recursion of the source; under the repair
    conditions the same operation is retried exactly once on the corrected
    line; and the two-zero guard is terminal, reporting the
    UnhandledRecordError at the classification site and the wrapped
    variable-data-length parse error at the Person decode site. -/
theorem c8_repair_single_retry (r : Reader) :
    (∀ (l : List Nat) (i : Nat) (st : St) (x y : Out),
      (l.get? 0 = some 48 → l.get? 1 = some 48) → lineStep r l i st x = lineStep r l i st y) ∧
    (∀ (l : List Nat) (i : Nat) (st : St),
      line r l i st = lineStep r l i st (line r (48 :: l) i st)) ∧
    (∀ (l : List Nat) (i : Nat) (st : St),
      i ≠ 0 → ¬ l.length < 8 → l.take 8 ≠ trailerId → ¬ l.length < 9 →
      l.get? 8 ≠ some 49 → l.get? 8 ≠ some 50 → l.get? 0 = some 48 →
      (l.get? 1 = some 48 →
        line r l i st = some (some (str "unhandled record: " ++ l), st, [])) ∧
      (l.get? 1 ≠ some 48 → line r l i st = line r (48 :: l) i st)) ∧
    (∀ (l : List Nat) (x y : Option (Person × Option Msg)),
      (l.get? 0 = some 48 → l.get? 1 = some 48) → personRowStep l x = personRowStep l y) ∧
    (∀ l : List Nat, personRow l = personRowStep l (personRow (48 :: l))) ∧
    (∀ (l : List Nat) (e : Msg), ¬ l.length < 76 →
      goAtoi (trimB ((l.drop 72).take 4)) = .error e →
      (l.get? 0 = some 48 → l.get? 1 = some 48 →
        personRow l = some (personFixed l, some (str "error reading variable data length: " ++ e))) ∧
      (l.get? 0 = some 48 → l.get? 1 ≠ some 48 → personRow l = personRow (48 :: l))) := by
  refine ⟨fun l i st x y h => lineStep_indep r l i st x y h,
          fun l i st => line_fix r l i st,
          fun l i st hi h8 htr h9 hc hp h0 =>
            ⟨fun h1 => line_unhandled r l i st hi h8 htr h9 hc hp h0 h1,
             fun h1n => line_retry r l i st hi h8 htr h9 hc hp h0 h1n⟩,
          fun l x y h => personRowStep_indep l x y h,
          fun l => personRow_fix l,
          fun l e h76 he =>
            ⟨fun h0 h1 => personRow_terminal l e h76 he h0 h1,
             fun h0 h1n => personRow_retry l e h76 he h0 h1n⟩⟩

/-- C8 witness: the line 0X34567ZZ is retried once with a zero prepended,
    and the corrected line, still unclassifiable and now starting with two
    zeros, terminates with the UnhandledRecordError. -/
theorem c8_witness :
    line noopReader rtLine 1 ⟨0, 0⟩ = line noopReader (48 :: rtLine) 1 ⟨0, 0⟩ ∧
    line noopReader (48 :: rtLine) 1 ⟨0, 0⟩ =
      some (some (str "unhandled record: " ++ (48 :: rtLine)), ⟨0, 0⟩, []) := by
  have h := c8_repair_single_retry noopReader
  constructor
  · exact (h.2.2.1 rtLine 1 ⟨0, 0⟩ (by decide) (by decide) (by decide) (by decide)
      (by decide) (by decide) (by decide)).2 (by decide)
  · exact (h.2.2.1 (48 :: rtLine) 1 ⟨0, 0⟩ (by decide) (by decide) (by decide) (by decide)
      (by decide) (by decide) (by decide)).1 (by decide)

/-- C8 counterexample: a Person line starting with two zero bytes whose
    variable-length field cannot be parsed reports the wrapped parse error,
    not an UnhandledRecordError, refuting the claim that the two-zero guard
    always reports an UnhandledRecordError. -/
theorem c8_counterexample :
    line noopReader pZZ 1 ⟨0, 0⟩ =
      some (some (str "error processing Person row: error reading variable data length: "
        ++ atoiErrMsg (str "XYZW")), ⟨0, 0⟩, []) ∧
    str "error processing Person row: error reading variable data length: "
        ++ atoiErrMsg (str "XYZW") ≠ str "unhandled record: " ++ pZZ := by
  exact ⟨by decide, by decide⟩

/-- C9: a Company line with parsed name length n, 1 <= n, whose n bytes fit
    in the line, decodes the name as the trimmed n - 1 bytes at offset 40. -/
theorem c9_company_name (l : List Nat) (n : Int) (hlen : ¬ l.length < 40)
    (hdisc : l.get? 8 = some 49) (hn : goAtoi (trimB ((l.drop 36).take 4)) = .ok n)
    (h1 : 1 ≤ n) (hfit : (40 + n : Int) ≤ (l.length : Int)) :
    companyRow l = some
      ({ companyNumber := trimB (l.take 8), companyStatus := trimB ((l.drop 9).take 1)
       , numberOfOfficers := trimB ((l.drop 32).take 4)
       , companyName := trimB ((l.drop 40).take (n - 1).toNat) }, none) := by
  have hnot : ¬ ((40 + n : Int) > (l.length : Int)) := by omega
  unfold companyRow
  simp [hlen, hn, hnot, h1]

/-- C9 witness: the Company line of the repository test decodes the name
    A. WEST & PARTNERS from declared length 19. -/
theorem c9_witness : companyRow cmpT3 = some (cmpT3Rec, none) := by
  have h := c9_company_name cmpT3 19 (by decide) (by decide) (by decide) (by decide) (by decide)
  exact h.trans (by decide)

/-- C10: on a Company or Person line that decodes without error, the
    matching counter is incremented and the record dispatched whether or
    not the handler then fails, the handler failure being returned after
    the increment; a line whose decode reports an error leaves the
    counters unchanged and dispatches nothing. -/
theorem c10_count_before_handler (r : Reader) (l : List Nat) (i : Nat) (st : St)
    (hi : i ≠ 0) (h8 : ¬ l.length < 8) (htr : l.take 8 ≠ trailerId) (h9 : ¬ l.length < 9) :
    (l.get? 8 = some 49 →
      (∀ c : Company, companyRow l = some (c, none) →
        line r l i st = some
          ((match r.companyHandler c with
            | some e => some (str "error processing Company handler: " ++ e)
            | none => none), { st with ct := st.ct + 1 }, [.company c])) ∧
      (∀ (c : Company) (e : Msg), companyRow l = some (c, some e) →
        line r l i st = some (some (str "error processing Company row: " ++ e), st, []))) ∧
    (l.get? 8 = some 50 →
      (∀ p : Person, personRow l = some (p, none) →
        line r l i st = some
          ((match r.personHandler p with
            | some e => some (str "error processing Person handler: " ++ e)
            | none => none), { st with pt := st.pt + 1 }, [.person p])) ∧
      (∀ (p : Person) (e : Msg), personRow l = some (p, some e) →
        line r l i st = some (some (str "error processing Person row: " ++ e), st, []))) := by
  constructor
  · intro hd
    simp only [List.get?_eq_getElem?] at hd
    constructor
    · intro c hcr
      unfold line lineStep
      simp [hi, h8, htr, h9, hd, hcr]
      cases r.companyHandler c <;> simp
    · intro c e hcr
      unfold line lineStep
      simp [hi, h8, htr, h9, hd, hcr]
  · intro hd
    simp only [List.get?_eq_getElem?] at hd
    constructor
    · intro p hpr
      unfold line lineStep
      simp [hi, h8, htr, h9, hd, hpr]
      cases r.personHandler p <;> simp
    · intro p e hpr
      unfold line lineStep
      simp [hi, h8, htr, h9, hd, hpr]

/-- C10 witness: with a company handler that fails, a decoded Company line
    still increments companiesProcessed before the handler error is
    returned, and the record is dispatched. -/
theorem c10_witness :
    line boomReader cmpT3 1 ⟨0, 0⟩ =
      some (some (str "error processing Company handler: boom"), ⟨1, 0⟩, [.company cmpT3Rec]) := by
  have h := ((c10_count_before_handler boomReader cmpT3 1 ⟨0, 0⟩ (by decide) (by decide)
    (by decide) (by decide)).1 (by decide)).1 cmpT3Rec (by decide)
  exact h.trans (by decide)
